import Mathlib

/-!
Verification development for the EFI-variable event subsystem of pcr-oracle
(src/efi-variable.c).  The C source is shallowly embedded: byte buffers are
lists of naturals (each < 256 for on-wire bytes), C strings are Lean strings
(assumed free of embedded NUL where noted), external collaborators
(digest engine, runtime variable store, authenticode parsing, shim alias
table) are fields of an `ExternalOps` record, and C unsigned-int
arithmetic is `Nat` reduced mod 2^32 where the source uses `unsigned int`.
-/

namespace EfiVar

/-- C `unsigned int` truncation (32-bit). -/
def U32 (n : Nat) : Nat := n % 4294967296

/-- Little-endian byte encoding of a 64-bit value, as written by the external
`buffer_put_u64le` helper (8 bytes, least significant first). -/
def u64le (n : Nat) : List Nat :=
  [n % 256, n / 256 % 256, n / 65536 % 256, n / 16777216 % 256,
   n / 4294967296 % 256, n / 1099511627776 % 256,
   n / 281474976710656 % 256, n / 72057594037927936 % 256]

/-- Little-endian decoding of a byte list, as read by the external
`buffer_get_u64le` helper. -/
def u64leDecode (l : List Nat) : Nat := l.foldr (fun b acc => b + 256 * acc) 0

/-- UTF-8 size in bytes of one scalar value (what C `strlen` counts per
character of the decoded name). -/
def utf8CharSize (c : Char) : Nat :=
  if c.toNat < 128 then 1
  else if c.toNat < 2048 then 2
  else if c.toNat < 65536 then 3
  else 4

/-- C `strlen` of the UTF-8 representation of a string (no embedded NUL). -/
def strlen (s : String) : Nat := (s.data.map utf8CharSize).sum

/-- UTF-8 byte encoding of one scalar value. -/
def utf8Char (c : Char) : List Nat :=
  let n := c.toNat
  if n < 128 then [n]
  else if n < 2048 then [192 + n / 64, 128 + n % 64]
  else if n < 65536 then [224 + n / 4096, 128 + n / 64 % 64, 128 + n % 64]
  else [240 + n / 262144, 128 + n / 4096 % 64, 128 + n / 64 % 64, 128 + n % 64]

/-- UTF-8 byte encoding of a string (the bytes a C `char *` holds). -/
def utf8Bytes (s : String) : List Nat := (s.data.map utf8Char).flatten

/-- UTF-16 code units of one scalar value (one unit, or a surrogate pair). -/
def utf16UnitsOfChar (c : Char) : List Nat :=
  if c.toNat < 65536 then [c.toNat]
  else [55296 + (c.toNat - 65536) / 1024, 56320 + (c.toNat - 65536) % 1024]

/-- Little-endian byte serialization of a list of 16-bit units. -/
def bytesOfUnits (us : List Nat) : List Nat :=
  (us.map (fun u => [u % 256, u / 256 % 256])).flatten

/-- Modelled from the spec: the external `buffer_put_utf16le` helper
(bufparser.c, not part of this core) UTF-16LE-encodes a string. -/
def buffer_put_utf16le (s : String) : List Nat :=
  bytesOfUnits ((s.data.map utf16UnitsOfChar).flatten)

/-- Group a byte list into 16-bit little-endian code units; fails on an odd
number of bytes. -/
def utf16Units : List Nat → Option (List Nat)
  | [] => some []
  | [_] => none
  | b0 :: b1 :: rest => (utf16Units rest).map (fun us => (b0 + 256 * b1) :: us)

/-- Decode a list of UTF-16 code units into scalar values, combining
surrogate pairs; fails on an unpaired surrogate. -/
def unitsDecode : List Nat → Option (List Char)
  | [] => some []
  | u :: rest =>
    if u < 55296 ∨ 57344 ≤ u then
      (unitsDecode rest).map (fun cs => Char.ofNat u :: cs)
    else if u < 56320 then
      match rest with
      | u2 :: rest2 =>
        if 56320 ≤ u2 ∧ u2 < 57344 then
          (unitsDecode rest2).map
            (fun cs => Char.ofNat (65536 + (u - 55296) * 1024 + (u2 - 56320)) :: cs)
        else none
      | [] => none
    else none

/-- Modelled from the spec: the external `buffer_get_utf16le` helper
(bufparser.c, not part of this core) decodes a UTF-16LE byte sequence into a
string, failing on an invalid sequence (for example an unpaired surrogate). -/
def buffer_get_utf16le (bytes : List Nat) : Option String :=
  ((utf16Units bytes).bind unitsDecode).map String.mk

/-- Modelled from the spec: canonical dashed hexadecimal rendering of one
hex digit, used by the external `tpm_event_decode_uuid` helper. -/
def hexDigitChar (n : Nat) : Char :=
  Char.ofNat (if n < 10 then 48 + n else 87 + n)

/-- Two lowercase hex digits of one byte. -/
def byteHexChars (b : Nat) : List Char :=
  [hexDigitChar (b / 16 % 16), hexDigitChar (b % 16)]

/-- Modelled from the spec: the external `tpm_event_decode_uuid` helper
renders a 16-byte GUID in its canonical dashed hexadecimal text form
(mixed-endian UEFI layout: the first three groups are little-endian). -/
def tpm_event_decode_uuid (guid : List Nat) : String :=
  let b := fun i => guid.getD i 0
  String.mk
    (byteHexChars (b 3) ++ byteHexChars (b 2) ++ byteHexChars (b 1) ++ byteHexChars (b 0)
      ++ [Char.ofNat 45]
      ++ byteHexChars (b 5) ++ byteHexChars (b 4)
      ++ [Char.ofNat 45]
      ++ byteHexChars (b 7) ++ byteHexChars (b 6)
      ++ [Char.ofNat 45]
      ++ byteHexChars (b 8) ++ byteHexChars (b 9)
      ++ [Char.ofNat 45]
      ++ byteHexChars (b 10) ++ byteHexChars (b 11) ++ byteHexChars (b 12)
      ++ byteHexChars (b 13) ++ byteHexChars (b 14) ++ byteHexChars (b 15))

/-- Decoded representation of one EFI_VARIABLE event body
(struct efi_variable_event inside tpm_parsed_event_t): the 16-byte GUID, the
decoded variable name (a NUL-free C string in the source) and the measured
payload (`data` / `len`). -/
structure EfiVariableEvent where
  variable_guid : List Nat
  variable_name : String
  data : List Nat
deriving DecidableEq, Repr

/-- The enclosing log event (tpm_event_t): its type code, its raw on-log
body bytes (`event_data` / `event_size`) and the digests the log recorded
for it, looked up by algorithm name (tpm_event_get_digest). -/
structure TpmEvent where
  event_type : Nat
  event_data : List Nat
  digests : String → Option (List Nat)

/-- Per-run rehash parameters (tpm_event_log_rehash_ctx_t): the digest
algorithm (identified by its openssl name) and the optional raw bytes of the
next-stage boot application. -/
structure RehashContext where
  algo : String
  next_stage_img : Option (List Nat)

/-- External collaborators consumed by this core, abstracted as pure
functions: digest computation, the runtime EFI variable store (keyed by the
UTF-8 bytes of the full variable name), Authenticode signer extraction
(certificates abstracted as opaque identifiers), authority-record lookup in
a named signature database, and the shim-loader alias table. -/
structure ExternalOps where
  digest_compute : String → List Nat → List Nat
  runtime_read_efi_variable : List Nat → Option (List Nat)
  authenticode_get_signer : List Nat → Option Nat
  efi_application_locate_authority_record : String → Nat → Option (List Nat)
  shim_variable_get_full_rtname : String → Option String

/-- Digest lookup on a log event (tpm_event_get_digest, external). -/
def tpm_event_get_digest (ev : TpmEvent) (algo : String) : Option (List Nat) :=
  ev.digests algo

/-- TCG event type code for EFI_VARIABLE_AUTHORITY events. -/
def TPM2_EFI_VARIABLE_AUTHORITY : Nat := 2147483872

/-- The two firmware hashing conventions (enum HASH_STRATEGY_EVENT /
HASH_STRATEGY_DATA). -/
inductive HashStrategy
  | event
  | data
deriving DecidableEq, Repr

/-- Marshaling of an EFI_VARIABLE event into its wire layout with the given
payload (source `__tpm_event_marshal_efi_variable`): GUID, name length in
UTF-16 units (u64 LE, from `strlen` held in a C `unsigned int`), data length
(u64 LE, `unsigned int`), UTF-16LE name, raw data.  Fails (returns `none`)
when the number of bytes produced by UTF-16LE-encoding the name differs from
twice the declared length, the check the source performs last.  The
`variable_guid` field of the parsed event is a fixed 16-byte array in the
source; the embedding writes the list verbatim. -/
def tpm_event_marshal_efi_variable (parsed : EfiVariableEvent) (raw_data : List Nat) :
    Option (List Nat) :=
  let var_len := U32 (strlen parsed.variable_name)
  let name_bytes := buffer_put_utf16le parsed.variable_name
  let name_len := U32 name_bytes.length
  if name_len = U32 (2 * var_len) then
    some (parsed.variable_guid ++ u64le var_len ++ u64le (U32 raw_data.length)
      ++ name_bytes ++ raw_data)
  else none

/-- Allocate-and-marshal wrapper (source `__tpm_event_efi_variable_build_event`):
returns the marshaled buffer, or `none` when marshaling failed. -/
def tpm_event_efi_variable_build_event (parsed : EfiVariableEvent) (raw_data : List Nat) :
    Option (List Nat) :=
  tpm_event_marshal_efi_variable parsed raw_data

/-- Result of `efi_variable_authority_get_record`: a real buffer, the
EFI_BSA_NOT_FOUND sentinel pointer, or NULL. -/
inductive GetRecordResult
  | found (bytes : List Nat)
  | notFound
  | nullBuf
deriving DecidableEq, Repr

/-- View an optional buffer as a `GetRecordResult` (a C `buffer_t *` that is
either a real buffer or NULL). -/
def bufferOfOption : Option (List Nat) → GetRecordResult
  | some bs => GetRecordResult.found bs
  | none => GetRecordResult.nullBuf

/-- Authority-record resolution (source `efi_variable_authority_get_record`):
maps the short variable name to a signature-database name (Shim →
shim-vendor-cert, db → db, MokListRT → MokList); any other name is read
as-is from the runtime variable store under its full name.  For recognized
names: a missing next-stage image yields the EFI_BSA_NOT_FOUND sentinel;
failed signer extraction yields NULL; otherwise the record located in the
database for the signer (or NULL when absent) is returned. -/
def efi_variable_authority_get_record (ops : ExternalOps) (parsed : EfiVariableEvent)
    (var_name : List Nat) (ctx : RehashContext) : GetRecordResult :=
  let db_choice : Option String :=
    if parsed.variable_name = "Shim" then some (r"shim-vendor-cert")
    else if parsed.variable_name = "db" then some (r"db")
    else if parsed.variable_name = "MokListRT" then some (r"MokList")
    else none
  match db_choice with
  | none => bufferOfOption (ops.runtime_read_efi_variable var_name)
  | some db_name =>
    match ctx.next_stage_img with
    | none => GetRecordResult.notFound
    | some img =>
      match ops.authenticode_get_signer img with
      | none => GetRecordResult.nullBuf
      | some signer =>
        bufferOfOption (ops.efi_application_locate_authority_record db_name signer)

/-- Hash-strategy detection (source
`__tpm_event_efi_variable_detect_hash_strategy`): `none` when the log
records no digest for the algorithm (the source returns -1); otherwise the
strategy together with a flag that is `true` exactly on the diagnostic
branch where neither the whole-event digest nor the data-only digest matches
(the source logs its undetermined-convention diagnostic there and falls back
to HASH_STRATEGY_DATA). -/
def tpm_event_efi_variable_detect_hash_strategy (ops : ExternalOps) (algo : String)
    (ev : TpmEvent) (parsed : EfiVariableEvent) : Option (HashStrategy × Bool) :=
  match tpm_event_get_digest ev algo with
  | none => none
  | some old_md =>
    if ops.digest_compute algo ev.event_data = old_md then
      some (HashStrategy.event, false)
    else if ops.digest_compute algo parsed.data = old_md then
      some (HashStrategy.data, false)
    else
      some (HashStrategy.data, true)

/-- Full-name resolution (source `tpm_efi_variable_event_extract_full_varname`),
returning the UTF-8 bytes of the name under which the variable is read at
runtime: a shim-loader alias verbatim when one exists, otherwise
`"<name>-<guid-text>"` written by snprintf into a 256-byte buffer, hence
truncated to at most 255 bytes. -/
def tpm_efi_variable_event_extract_full_varname (ops : ExternalOps)
    (parsed : EfiVariableEvent) : List Nat :=
  match ops.shim_variable_get_full_rtname parsed.variable_name with
  | some rtname => utf8Bytes rtname
  | none =>
    (utf8Bytes (parsed.variable_name ++ "-"
      ++ tpm_event_decode_uuid parsed.variable_guid)).take 255

/-- Outcome of one rehash call (source `__tpm_event_efi_variable_rehash`,
which returns a `tpm_evdigest_t *`): a digest value, the NULL pointer (no
digest produced), or a call to `fatal()` — which terminates the entire
process, not just this event's processing. -/
inductive RehashOutcome
  | digest (md : List Nat)
  | noDigest
  | fatalAbort
deriving DecidableEq, Repr

/-- The rehash engine (source `__tpm_event_efi_variable_rehash`): detect the
hashing strategy (no recorded digest ⇒ NULL); for AUTHORITY events resolve
the authority record (EFI_BSA_NOT_FOUND ⇒ return the log's recorded digest
unchanged), otherwise read the live variable; a NULL content buffer ⇒ NULL;
under the whole-event strategy re-marshal (a marshaling failure hits
`fatal()`) and digest the marshaled bytes, under the data-only strategy
digest the content directly. -/
def tpm_event_efi_variable_rehash (ops : ExternalOps) (ctx : RehashContext)
    (ev : TpmEvent) (parsed : EfiVariableEvent) : RehashOutcome :=
  let algo := ctx.algo
  let var_name := tpm_efi_variable_event_extract_full_varname ops parsed
  match tpm_event_efi_variable_detect_hash_strategy ops algo ev parsed with
  | none => RehashOutcome.noDigest
  | some (hash_strategy, _) =>
    let record :=
      if ev.event_type = TPM2_EFI_VARIABLE_AUTHORITY then
        efi_variable_authority_get_record ops parsed var_name ctx
      else
        bufferOfOption (ops.runtime_read_efi_variable var_name)
    match record with
    | GetRecordResult.notFound =>
      match tpm_event_get_digest ev algo with
      | some md => RehashOutcome.digest md
      | none => RehashOutcome.noDigest
    | GetRecordResult.nullBuf => RehashOutcome.noDigest
    | GetRecordResult.found file_data =>
      match hash_strategy with
      | HashStrategy.event =>
        match tpm_event_efi_variable_build_event parsed file_data with
        | none => RehashOutcome.fatalAbort
        | some event_data => RehashOutcome.digest (ops.digest_compute algo event_data)
      | HashStrategy.data => RehashOutcome.digest (ops.digest_compute algo file_data)

/-- Read `n` bytes from a cursor (the external buffer_get on a buffer_t):
the bytes read and the remainder, or `none` when the cursor is exhausted. -/
def takeBytes (n : Nat) (l : List Nat) : Option (List Nat × List Nat) :=
  if n ≤ l.length then some (l.take n, l.drop n) else none

/-- Event-body decoding (source `__tpm_event_parse_efi_variable`): a 16-byte
GUID, two u64 LE length fields, `2 × name_len` bytes of UTF-16LE name
(failing on invalid UTF-16), and `data_len` bytes of payload.  Returns the
decoded event and the unconsumed remainder of the cursor. -/
def tpm_event_parse_efi_variable (bp : List Nat) :
    Option (EfiVariableEvent × List Nat) :=
  match takeBytes 16 bp with
  | none => none
  | some (variable_guid, bp) =>
  match takeBytes 8 bp with
  | none => none
  | some (nameLenBytes, bp) =>
  match takeBytes 8 bp with
  | none => none
  | some (dataLenBytes, bp) =>
  match takeBytes (2 * u64leDecode nameLenBytes) bp with
  | none => none
  | some (nameBytes, bp) =>
  match buffer_get_utf16le nameBytes with
  | none => none
  | some variable_name =>
  match takeBytes (u64leDecode dataLenBytes) bp with
  | none => none
  | some (data, bp) =>
    some ({ variable_guid := variable_guid, variable_name := variable_name,
            data := data }, bp)

/-! Concrete fixtures used to instantiate the theorems below. -/

/-- External collaborators that find nothing and whose digest engine returns
the constant digest `[0]`. -/
def opsConst : ExternalOps where
  digest_compute := fun _ _ => [0]
  runtime_read_efi_variable := fun _ => none
  authenticode_get_signer := fun _ => none
  efi_application_locate_authority_record := fun _ _ => none
  shim_variable_get_full_rtname := fun _ => none

/-- Like `opsConst`, but every runtime variable reads back as `[1, 2]`. -/
def opsRead12 : ExternalOps :=
  { opsConst with runtime_read_efi_variable := fun _ => some [1, 2] }

/-- Like `opsConst`, but every runtime variable reads back empty. -/
def opsReadEmpty : ExternalOps :=
  { opsConst with runtime_read_efi_variable := fun _ => some [] }

/-- Collaborators for the end-to-end authority scenario: the digest of `[9]`
is `[1]`, every other digest is `[2]`; the next-stage image is signed by
certificate 42; database db holds record `[3, 3]` for that signer. -/
def opsAuth : ExternalOps where
  digest_compute := fun _ bs => if bs = [9] then [1] else [2]
  runtime_read_efi_variable := fun _ => none
  authenticode_get_signer := fun _ => some 42
  efi_application_locate_authority_record := fun db c =>
    if db = "db" ∧ c = 42 then some [3, 3] else none
  shim_variable_get_full_rtname := fun _ => none

/-- Collaborators whose signer extraction always fails. -/
def opsSignerFail : ExternalOps :=
  { opsConst with authenticode_get_signer := fun _ => none }

/-- A log event whose recorded digest is `[0]` for every algorithm. -/
def evDigest0 : TpmEvent where
  event_type := 0
  event_data := []
  digests := fun _ => some [0]

/-- A log event that records no digest at all. -/
def evNoDigest : TpmEvent where
  event_type := 0
  event_data := []
  digests := fun _ => none

/-- An EFI_VARIABLE_AUTHORITY log event that records no digest at all. -/
def evAuthNoDigest : TpmEvent where
  event_type := TPM2_EFI_VARIABLE_AUTHORITY
  event_data := []
  digests := fun _ => none

/-- An EFI_VARIABLE_AUTHORITY log event whose recorded digest is `[5]`. -/
def evAuthDigest5 : TpmEvent where
  event_type := TPM2_EFI_VARIABLE_AUTHORITY
  event_data := []
  digests := fun _ => some [5]

/-- An EFI_VARIABLE_AUTHORITY log event with raw body `[7]` and recorded
digest `[1]` (matching `opsAuth`'s digest of the payload `[9]`, and not
matching its digest `[2]` of the raw body). -/
def evAuth1 : TpmEvent where
  event_type := TPM2_EFI_VARIABLE_AUTHORITY
  event_data := [7]
  digests := fun _ => some [1]

/-- A plain (non-authority) log event with recorded digest `[0]`. -/
def evPlain0 : TpmEvent where
  event_type := 0
  event_data := []
  digests := fun _ => some [0]

/-- A decoded event for an ordinary variable named Test. -/
def parsedPlain : EfiVariableEvent where
  variable_guid := List.replicate 16 0
  variable_name := "Test"
  data := []

/-- A decoded event for the db variable with payload `[9]`. -/
def parsedDb9 : EfiVariableEvent where
  variable_guid := List.replicate 16 0
  variable_name := "db"
  data := [9]

/-- A decoded event for the db variable with empty payload. -/
def parsedDb : EfiVariableEvent where
  variable_guid := List.replicate 16 0
  variable_name := "db"
  data := []

/-- A decoded event for the SbatLevel variable (not a signature database). -/
def parsedSbat : EfiVariableEvent where
  variable_guid := List.replicate 16 0
  variable_name := "SbatLevel"
  data := []

/-- A decoded event whose variable name holds a non-ASCII character, so its
UTF-16LE encoding (2 bytes) differs from twice its C strlen (2 × 2 bytes). -/
def parsedAccent : EfiVariableEvent where
  variable_guid := List.replicate 16 0
  variable_name := "é"
  data := []

/-- A decoded event whose variable name is 300 characters long, so the
full-name buffer cannot hold name, dash and GUID text. -/
def parsedLong : EfiVariableEvent where
  variable_guid := List.replicate 16 0
  variable_name := String.mk (List.replicate 300 (Char.ofNat 97))
  data := []

/-- A rehash context for the sha256 bank with no next-stage image. -/
def ctxNoImg : RehashContext where
  algo := "sha256"
  next_stage_img := none

/-- A rehash context for the sha256 bank with a next-stage image. -/
def ctxImg : RehashContext where
  algo := "sha256"
  next_stage_img := some [0]

/-- A valid wire body: zero GUID, 2-unit name db, 3 bytes of payload. -/
def wireDb : List Nat :=
  List.replicate 16 0 ++ u64le 2 ++ u64le 3 ++ [100, 0, 98, 0] ++ [7, 8, 9]

/-- The decoded form of `wireDb`. -/
def wireDbParsed : EfiVariableEvent where
  variable_guid := List.replicate 16 0
  variable_name := "db"
  data := [7, 8, 9]

/-- A valid wire body whose 1-unit name is the non-ASCII character U+00E9. -/
def wireAccent : List Nat :=
  List.replicate 16 0 ++ u64le 1 ++ u64le 0 ++ [233, 0]

/-! Helper lemmas. -/

/-- Whenever the log records a digest for the algorithm, strategy detection
produces a strategy (the source returns -1 only on a missing digest). -/
lemma detect_isSome (ops : ExternalOps) (algo : String) (ev : TpmEvent)
    (parsed : EfiVariableEvent) (d : List Nat)
    (h : tpm_event_get_digest ev algo = some d) :
    ∃ s f, tpm_event_efi_variable_detect_hash_strategy ops algo ev parsed = some (s, f) := by
  unfold tpm_event_efi_variable_detect_hash_strategy
  rw [h]
  dsimp only
  split_ifs <;> exact ⟨_, _, rfl⟩

/-- For a recognized signature-database name with no next-stage image, the
authority resolver returns the not-found sentinel. -/
lemma get_record_notFound (ops : ExternalOps) (parsed : EfiVariableEvent)
    (vn : List Nat) (ctx : RehashContext)
    (hname : parsed.variable_name = "Shim" ∨ parsed.variable_name = "db"
      ∨ parsed.variable_name = "MokListRT")
    (himg : ctx.next_stage_img = none) :
    efi_variable_authority_get_record ops parsed vn ctx = GetRecordResult.notFound := by
  rcases hname with h | h | h <;>
    simp [efi_variable_authority_get_record, h, himg]

/-- A valid scalar value survives the round trip through Char. -/
lemma char_toNat_ofNat (n : Nat) (hv : n.isValidChar) : (Char.ofNat n).toNat = n := by
  rw [Char.ofNat, dif_pos hv]
  rfl

/-- A successful cursor read splits the buffer and reads exactly n bytes. -/
lemma takeBytes_spec {n : Nat} {l a b : List Nat} (h : takeBytes n l = some (a, b)) :
    l = a ++ b ∧ a.length = n := by
  unfold takeBytes at h
  split at h
  case isTrue hle =>
    simp only [Option.some.injEq, Prod.mk.injEq] at h
    obtain ⟨rfl, rfl⟩ := h
    exact ⟨(List.take_append_drop n l).symm, by simp [List.length_take, Nat.min_eq_left hle]⟩
  case isFalse => exact absurd h (by simp)

/-- Little-endian u64 decoding of 8 genuine bytes is inverted by encoding. -/
lemma u64le_u64leDecode {l : List Nat} (h8 : l.length = 8) (hb : ∀ b ∈ l, b < 256) :
    u64le (u64leDecode l) = l := by
  match l, h8 with
  | [b0, b1, b2, b3, b4, b5, b6, b7], _ =>
    simp only [List.mem_cons, List.not_mem_nil, or_false, forall_eq_or_imp, forall_eq] at hb
    obtain ⟨h0, h1, h2, h3, h4, h5, h6, h7⟩ := hb
    simp only [u64le, u64leDecode, List.foldr]
    simp only [List.cons.injEq, and_true]
    refine ⟨?_, ?_, ?_, ?_, ?_, ?_, ?_, ?_⟩ <;> omega



/-- Grouping genuine bytes into 16-bit units is inverted by serializing the
units, which are below 65536, half as many as the bytes. -/
lemma utf16Units_inv {bs us : List Nat} (h : utf16Units bs = some us)
    (hb : ∀ b ∈ bs, b < 256) :
    bytesOfUnits us = bs ∧ (∀ u ∈ us, u < 65536) ∧ bs.length = 2 * us.length := by
  induction bs using utf16Units.induct generalizing us with
  | case1 =>
    simp only [utf16Units, Option.some.injEq] at h
    subst h
    simp [bytesOfUnits]
  | case2 b =>
    simp [utf16Units] at h
  | case3 b0 b1 rest ih =>
    simp only [utf16Units, Option.map_eq_some'] at h
    obtain ⟨us', hrest, rfl⟩ := h
    have hbrest : ∀ b ∈ rest, b < 256 := fun b hbm => hb b (by simp [hbm])
    obtain ⟨henc, hun, hlen⟩ := ih hrest hbrest
    have hb0 : b0 < 256 := hb b0 (by simp)
    have hb1 : b1 < 256 := hb b1 (by simp)
    refine ⟨?_, ?_, ?_⟩
    · simp only [bytesOfUnits, List.map_cons, List.flatten_cons] at *
      simp [henc]
      constructor <;> omega
    · intro u hu
      rcases List.mem_cons.mp hu with rfl | hu
      · omega
      · exact hun u hu
    · simp [hlen]
      omega



/-- When a unit list decodes to ASCII characters, the units are exactly the
character codes. -/
lemma unitsDecode_ascii {us : List Nat} {cs : List Char}
    (h : unitsDecode us = some cs) (hu : ∀ u ∈ us, u < 65536)
    (ha : ∀ c ∈ cs, c.toNat < 128) :
    us = cs.map Char.toNat := by
  induction us using unitsDecode.induct generalizing cs with
  | case1 =>
    have h' : some ([] : List Char) = some cs := h
    injection h' with h'
    subst h'
    rfl
  | case2 u rest hcond ih =>
    unfold unitsDecode at h
    rw [if_pos hcond, Option.map_eq_some'] at h
    obtain ⟨cs', hrest, rfl⟩ := h
    have hu' : u < 65536 := hu u (by simp)
    have hv : u.isValidChar := by
      rcases hcond with h1 | h1
      · exact Or.inl h1
      · exact Or.inr ⟨by omega, by omega⟩
    have htl := ih hrest (fun x hx => hu x (by simp [hx])) (fun c hc => ha c (by simp [hc]))
    simp only [List.map_cons, char_toNat_ofNat u hv]
    exact congrArg (u :: ·) htl
  | case3 u hns hlow u2 rest2 hpair ih =>
    simp only [unitsDecode, if_neg hns, if_pos hlow, if_pos hpair,
      Option.map_eq_some'] at h
    obtain ⟨cs', hrest, rfl⟩ := h
    exfalso
    have hv : (65536 + (u - 55296) * 1024 + (u2 - 56320)).isValidChar := by
      refine Or.inr ⟨by omega, by omega⟩
    have hhd := ha (Char.ofNat (65536 + (u - 55296) * 1024 + (u2 - 56320))) (by simp)
    rw [char_toNat_ofNat _ hv] at hhd
    omega
  | case4 u hns hlow u2 rest2 hpair =>
    simp only [unitsDecode, if_neg hns, if_pos hlow, if_neg hpair] at h
    exact Option.noConfusion h
  | case5 u hns hlow =>
    simp only [unitsDecode, if_neg hns, if_pos hlow] at h
    exact Option.noConfusion h
  | case6 u rest hns hge =>
    have hnone : unitsDecode (u :: rest) = none := by
      unfold unitsDecode
      rw [if_neg hns, if_neg hge]
    rw [hnone] at h
    exact Option.noConfusion h


/-- The C strlen of an ASCII-only string is its character count. -/
lemma strlen_ascii {cs : List Char} (h : ∀ c ∈ cs, c.toNat < 128) :
    strlen (String.mk cs) = cs.length := by
  show (cs.map utf8CharSize).sum = cs.length
  induction cs with
  | nil => rfl
  | cons c tl ih =>
    have hc : utf8CharSize c = 1 := by
      have hcc := h c (by simp)
      simp [utf8CharSize, hcc]
    have htl := ih (fun x hx => h x (by simp [hx]))
    simp [hc, htl]
    omega

/-- UTF-16LE encoding of an ASCII-only string serializes one unit per
character. -/
lemma put_utf16le_ascii {cs : List Char} (h : ∀ c ∈ cs, c.toNat < 128) :
    buffer_put_utf16le (String.mk cs) = bytesOfUnits (cs.map Char.toNat) := by
  show bytesOfUnits ((cs.map utf16UnitsOfChar).flatten) = bytesOfUnits (cs.map Char.toNat)
  congr 1
  induction cs with
  | nil => rfl
  | cons c tl ih =>
    have hc : utf16UnitsOfChar c = [c.toNat] := by
      have hcc := h c (by simp)
      have hlt : c.toNat < 65536 := by omega
      simp [utf16UnitsOfChar, hlt]
    have htl := ih (fun x hx => h x (by simp [hx]))
    simp [hc, htl]

/-! Theorems for the claims. -/

/-- C1: for an event with a recorded digest for the target algorithm,
hash-strategy detection returns WholeEvent when the recorded digest equals
the digest of the raw on-log event bytes; otherwise DataOnly (without the
undetermined flag) when it equals the digest of the decoded payload; and
otherwise DataOnly with the event flagged as having an undetermined hashing
convention. -/
theorem C1_detect_strategy_cases (ops : ExternalOps) (algo : String)
    (ev : TpmEvent) (parsed : EfiVariableEvent) (old_md : List Nat)
    (h : tpm_event_get_digest ev algo = some old_md) :
    (ops.digest_compute algo ev.event_data = old_md →
      tpm_event_efi_variable_detect_hash_strategy ops algo ev parsed
        = some (HashStrategy.event, false))
    ∧ (ops.digest_compute algo ev.event_data ≠ old_md →
       ops.digest_compute algo parsed.data = old_md →
      tpm_event_efi_variable_detect_hash_strategy ops algo ev parsed
        = some (HashStrategy.data, false))
    ∧ (ops.digest_compute algo ev.event_data ≠ old_md →
       ops.digest_compute algo parsed.data ≠ old_md →
      tpm_event_efi_variable_detect_hash_strategy ops algo ev parsed
        = some (HashStrategy.data, true)) := by
  refine ⟨fun h1 => ?_, fun h1 h2 => ?_, fun h1 h2 => ?_⟩
  · simp [tpm_event_efi_variable_detect_hash_strategy, h, h1]
  · simp [tpm_event_efi_variable_detect_hash_strategy, h, h1, h2]
  · simp [tpm_event_efi_variable_detect_hash_strategy, h, h1, h2]

/-- C1 witness: with a constant digest engine and a recorded digest equal to
it, detection settles on the whole-event strategy. -/
theorem C1_witness :
    tpm_event_efi_variable_detect_hash_strategy opsConst (r"sha256") evDigest0 parsedPlain
      = some (HashStrategy.event, false) :=
  (C1_detect_strategy_cases opsConst (r"sha256") evDigest0 parsedPlain [0] rfl).1 rfl

/-- C10: when the recorded digest matches both the digest of the raw on-log
event bytes and the digest of the decoded payload, detection returns
WholeEvent — the whole-event comparison is made first and wins. -/
theorem C10_whole_event_priority (ops : ExternalOps) (algo : String)
    (ev : TpmEvent) (parsed : EfiVariableEvent) (old_md : List Nat)
    (h : tpm_event_get_digest ev algo = some old_md)
    (h1 : ops.digest_compute algo ev.event_data = old_md)
    (h2 : ops.digest_compute algo parsed.data = old_md) :
    tpm_event_efi_variable_detect_hash_strategy ops algo ev parsed
      = some (HashStrategy.event, false) := by
  simp [tpm_event_efi_variable_detect_hash_strategy, h, h1]

/-- C10 witness: a constant digest engine makes both comparisons match, and
detection still reports the whole-event strategy. -/
theorem C10_witness :
    tpm_event_efi_variable_detect_hash_strategy opsConst (r"md5") evDigest0 parsedDb
      = some (HashStrategy.event, false) :=
  C10_whole_event_priority opsConst (r"md5") evDigest0 parsedDb [0] rfl rfl rfl

/-- C7: when the log entry records no digest for the requested algorithm,
strategy detection fails (returns no strategy) and the event's rehash
produces the no-digest outcome. -/
theorem C7_no_recorded_digest (ops : ExternalOps) (ctx : RehashContext)
    (ev : TpmEvent) (parsed : EfiVariableEvent)
    (h : tpm_event_get_digest ev ctx.algo = none) :
    tpm_event_efi_variable_detect_hash_strategy ops ctx.algo ev parsed = none
    ∧ tpm_event_efi_variable_rehash ops ctx ev parsed = RehashOutcome.noDigest := by
  have hdet : tpm_event_efi_variable_detect_hash_strategy ops ctx.algo ev parsed = none := by
    simp [tpm_event_efi_variable_detect_hash_strategy, h]
  exact ⟨hdet, by simp [tpm_event_efi_variable_rehash, hdet]⟩

/-- C7 witness: an event without digests rehashes to the no-digest outcome. -/
theorem C7_witness :
    tpm_event_efi_variable_detect_hash_strategy opsConst ctxNoImg.algo evNoDigest parsedPlain = none
    ∧ tpm_event_efi_variable_rehash opsConst ctxNoImg evNoDigest parsedPlain
      = RehashOutcome.noDigest :=
  C7_no_recorded_digest opsConst ctxNoImg evNoDigest parsedPlain rfl

/-- C6: the authority resolver maps short name Shim to database
shim-vendor-cert, db to db and MokListRT to MokList (the located record for
the extracted signer is what it returns), and for every other short name it
bypasses authority-record logic and reads the live variable under its full
name. -/
theorem C6_authority_mapping :
    (∀ (ops : ExternalOps) (parsed : EfiVariableEvent) (vn : List Nat)
      (ctx : RehashContext) (img : List Nat) (s : Nat),
      parsed.variable_name = "Shim" →
      ctx.next_stage_img = some img →
      ops.authenticode_get_signer img = some s →
      efi_variable_authority_get_record ops parsed vn ctx
        = bufferOfOption (ops.efi_application_locate_authority_record (r"shim-vendor-cert") s))
    ∧ (∀ (ops : ExternalOps) (parsed : EfiVariableEvent) (vn : List Nat)
      (ctx : RehashContext) (img : List Nat) (s : Nat),
      parsed.variable_name = "db" →
      ctx.next_stage_img = some img →
      ops.authenticode_get_signer img = some s →
      efi_variable_authority_get_record ops parsed vn ctx
        = bufferOfOption (ops.efi_application_locate_authority_record (r"db") s))
    ∧ (∀ (ops : ExternalOps) (parsed : EfiVariableEvent) (vn : List Nat)
      (ctx : RehashContext) (img : List Nat) (s : Nat),
      parsed.variable_name = "MokListRT" →
      ctx.next_stage_img = some img →
      ops.authenticode_get_signer img = some s →
      efi_variable_authority_get_record ops parsed vn ctx
        = bufferOfOption (ops.efi_application_locate_authority_record (r"MokList") s))
    ∧ (∀ (ops : ExternalOps) (parsed : EfiVariableEvent) (vn : List Nat)
      (ctx : RehashContext),
      parsed.variable_name ≠ "Shim" →
      parsed.variable_name ≠ "db" →
      parsed.variable_name ≠ "MokListRT" →
      efi_variable_authority_get_record ops parsed vn ctx
        = bufferOfOption (ops.runtime_read_efi_variable vn)) := by
  refine ⟨?_, ?_, ?_, ?_⟩
  · intro ops parsed vn ctx img s h1 h2 h3
    simp [efi_variable_authority_get_record, h1, h2, h3]
  · intro ops parsed vn ctx img s h1 h2 h3
    simp [efi_variable_authority_get_record, h1, h2, h3]
  · intro ops parsed vn ctx img s h1 h2 h3
    simp [efi_variable_authority_get_record, h1, h2, h3]
  · intro ops parsed vn ctx h1 h2 h3
    simp [efi_variable_authority_get_record, h1, h2, h3]

/-- C6 witness: SbatLevel is no signature-database name, so the resolver
reads the live variable, which here holds `[1, 2]`. -/
theorem C6_witness :
    efi_variable_authority_get_record opsRead12 parsedSbat [] ctxNoImg
      = GetRecordResult.found [1, 2] := by
  have h := C6_authority_mapping.2.2.2 opsRead12 parsedSbat [] ctxNoImg
    (by decide) (by decide) (by decide)
  simpa [opsRead12, opsConst, bufferOfOption] using h

/-- C3 counterexample: an EFI_VARIABLE_AUTHORITY event for db whose log
entry records no digest, rehashed with no next-stage image, yields the
no-digest (Failed) outcome, not the Unchanged outcome — strategy detection
already fails before the authority path is reached.  This falsifies the
claim that such events never produce the Failed outcome. -/
theorem C3_counterexample :
    tpm_event_efi_variable_rehash opsConst ctxNoImg evAuthNoDigest parsedDb
      = RehashOutcome.noDigest := by
  rfl

/-- C3 (amended): for an EFI_VARIABLE_AUTHORITY event whose short name is a
recognized signature-database name and which does record a digest for the
target algorithm, an absent next-stage image makes rehash return that
recorded digest verbatim (the Unchanged outcome), never the no-digest
outcome. -/
theorem C3_no_image_unchanged (ops : ExternalOps) (ctx : RehashContext)
    (ev : TpmEvent) (parsed : EfiVariableEvent) (d : List Nat)
    (hname : parsed.variable_name = "Shim" ∨ parsed.variable_name = "db"
      ∨ parsed.variable_name = "MokListRT")
    (htype : ev.event_type = TPM2_EFI_VARIABLE_AUTHORITY)
    (himg : ctx.next_stage_img = none)
    (hd : tpm_event_get_digest ev ctx.algo = some d) :
    tpm_event_efi_variable_rehash ops ctx ev parsed = RehashOutcome.digest d := by
  obtain ⟨s, f, hdet⟩ := detect_isSome ops ctx.algo ev parsed d hd
  have hrec := get_record_notFound ops parsed
    (tpm_efi_variable_event_extract_full_varname ops parsed) ctx hname himg
  simp [tpm_event_efi_variable_rehash, hdet, htype, hrec, hd]

/-- C3 witness: a db authority event with recorded digest `[5]` and no
next-stage image rehashes to that digest unchanged. -/
theorem C3_witness :
    tpm_event_efi_variable_rehash opsConst ctxNoImg evAuthDigest5 parsedDb
      = RehashOutcome.digest [5] :=
  C3_no_image_unchanged opsConst ctxNoImg evAuthDigest5 parsedDb [5]
    (Or.inr (Or.inl rfl)) rfl rfl rfl

/-- C2: an EFI_VARIABLE_AUTHORITY event for variable db whose recorded
digest matches the digest of the payload (and not of the raw event bytes,
so the data-only strategy is detected), with a next-stage image whose
signer is extracted successfully and whose authority record in database db
is R, rehashes to the digest of R. -/
theorem C2_authority_rehash (ops : ExternalOps) (ctx : RehashContext)
    (ev : TpmEvent) (parsed : EfiVariableEvent) (D img R : List Nat) (s : Nat)
    (htype : ev.event_type = TPM2_EFI_VARIABLE_AUTHORITY)
    (hname : parsed.variable_name = "db")
    (halgo : ctx.algo = "sha256")
    (hd : tpm_event_get_digest ev (r"sha256") = some D)
    (hraw : ops.digest_compute (r"sha256") ev.event_data ≠ D)
    (hpay : ops.digest_compute (r"sha256") parsed.data = D)
    (himg : ctx.next_stage_img = some img)
    (hsig : ops.authenticode_get_signer img = some s)
    (hrec : ops.efi_application_locate_authority_record (r"db") s = some R) :
    tpm_event_efi_variable_rehash ops ctx ev parsed
      = RehashOutcome.digest (ops.digest_compute (r"sha256") R) := by
  have hdet : tpm_event_efi_variable_detect_hash_strategy ops ctx.algo ev parsed
      = some (HashStrategy.data, false) := by
    rw [halgo]
    simp [tpm_event_efi_variable_detect_hash_strategy, hd, hraw, hpay]
  have hget : efi_variable_authority_get_record ops parsed
      (tpm_efi_variable_event_extract_full_varname ops parsed) ctx
      = GetRecordResult.found R := by
    simp [efi_variable_authority_get_record, hname, himg, hsig, hrec, bufferOfOption]
  rw [halgo] at hdet
  simp [tpm_event_efi_variable_rehash, hdet, htype, hget, halgo]

/-- C2 witness: with the `opsAuth` collaborators and the `evAuth1` log
event, the rehash of the db authority event is the digest `[2]` of the
located record `[3, 3]`. -/
theorem C2_witness :
    tpm_event_efi_variable_rehash opsAuth ctxImg evAuth1 parsedDb9
      = RehashOutcome.digest (opsAuth.digest_compute (r"sha256") [3, 3]) :=
  C2_authority_rehash opsAuth ctxImg evAuth1 parsedDb9 [1] [0] [3, 3] 42
    rfl rfl rfl rfl (by decide) rfl rfl rfl (by decide)

/-- C9 counterexample: an unreadable live variable (a ContentUnavailable
situation) and a failed signer extraction (a genuine verification failure)
produce the very same no-digest outcome at the rehash interface — the code
returns NULL for both, so the two are not distinct outcomes as claimed. -/
theorem C9_counterexample :
    tpm_event_efi_variable_rehash opsConst ctxNoImg evPlain0 parsedPlain
      = RehashOutcome.noDigest
    ∧ tpm_event_efi_variable_rehash opsSignerFail ctxImg evAuthDigest5 parsedDb
      = RehashOutcome.noDigest := by
  exact ⟨rfl, rfl⟩

/-- C9 (amended): an unreadable live variable, a failed signer extraction
and an authority-record lookup that finds no match all collapse to the same
no-digest (NULL) outcome at the rehash interface; the code does not
distinguish the ContentUnavailable situations from the genuine verification
failure.  Only the not-found sentinel is distinguished (the Unchanged
outcome, reusing the recorded digest). -/
theorem C9_no_digest_conflation :
    (∀ (ops : ExternalOps) (ctx : RehashContext) (ev : TpmEvent)
      (parsed : EfiVariableEvent) (d : List Nat),
      tpm_event_get_digest ev ctx.algo = some d →
      ev.event_type ≠ TPM2_EFI_VARIABLE_AUTHORITY →
      (∀ vn, ops.runtime_read_efi_variable vn = none) →
      tpm_event_efi_variable_rehash ops ctx ev parsed = RehashOutcome.noDigest)
    ∧ (∀ (ops : ExternalOps) (ctx : RehashContext) (ev : TpmEvent)
      (parsed : EfiVariableEvent) (d img : List Nat),
      tpm_event_get_digest ev ctx.algo = some d →
      ev.event_type = TPM2_EFI_VARIABLE_AUTHORITY →
      (parsed.variable_name = "Shim" ∨ parsed.variable_name = "db"
        ∨ parsed.variable_name = "MokListRT") →
      ctx.next_stage_img = some img →
      ops.authenticode_get_signer img = none →
      tpm_event_efi_variable_rehash ops ctx ev parsed = RehashOutcome.noDigest)
    ∧ (∀ (ops : ExternalOps) (ctx : RehashContext) (ev : TpmEvent)
      (parsed : EfiVariableEvent) (d img : List Nat) (s : Nat),
      tpm_event_get_digest ev ctx.algo = some d →
      ev.event_type = TPM2_EFI_VARIABLE_AUTHORITY →
      (parsed.variable_name = "Shim" ∨ parsed.variable_name = "db"
        ∨ parsed.variable_name = "MokListRT") →
      ctx.next_stage_img = some img →
      ops.authenticode_get_signer img = some s →
      (∀ db, ops.efi_application_locate_authority_record db s = none) →
      tpm_event_efi_variable_rehash ops ctx ev parsed = RehashOutcome.noDigest) := by
  refine ⟨?_, ?_, ?_⟩
  · intro ops ctx ev parsed d hd htype hread
    obtain ⟨st, f, hdet⟩ := detect_isSome ops ctx.algo ev parsed d hd
    simp [tpm_event_efi_variable_rehash, hdet, htype, hread, bufferOfOption]
  · intro ops ctx ev parsed d img hd htype hname himg hsig
    obtain ⟨st, f, hdet⟩ := detect_isSome ops ctx.algo ev parsed d hd
    have hrec : efi_variable_authority_get_record ops parsed
        (tpm_efi_variable_event_extract_full_varname ops parsed) ctx
        = GetRecordResult.nullBuf := by
      rcases hname with h | h | h <;>
        simp [efi_variable_authority_get_record, h, himg, hsig]
    simp [tpm_event_efi_variable_rehash, hdet, htype, hrec]
  · intro ops ctx ev parsed d img s hd htype hname himg hsig hloc
    obtain ⟨st, f, hdet⟩ := detect_isSome ops ctx.algo ev parsed d hd
    have hrec : efi_variable_authority_get_record ops parsed
        (tpm_efi_variable_event_extract_full_varname ops parsed) ctx
        = GetRecordResult.nullBuf := by
      rcases hname with h | h | h <;>
        simp [efi_variable_authority_get_record, h, himg, hsig, hloc, bufferOfOption]
    simp [tpm_event_efi_variable_rehash, hdet, htype, hrec]

/-- C9 witness: the signer-extraction-failure conjunct at concrete inputs. -/
theorem C9_witness :
    tpm_event_efi_variable_rehash opsSignerFail ctxImg evAuthDigest5 parsedDb9
      = RehashOutcome.noDigest :=
  C9_no_digest_conflation.2.1 opsSignerFail ctxImg evAuthDigest5 parsedDb9 [5] [0]
    rfl rfl (Or.inr (Or.inl rfl)) rfl rfl

/-- C4 counterexample: a variable name holding the non-ASCII character
U+00E9 makes re-marshaling fail, and the rehash of such an event under the
whole-event strategy reaches `fatal()` — which terminates the whole
process, aborting the processing of every remaining event in the log rather
than only this one. -/
theorem C4_counterexample :
    tpm_event_marshal_efi_variable parsedAccent [] = none
    ∧ tpm_event_efi_variable_rehash opsReadEmpty ctxNoImg evPlain0 parsedAccent
      = RehashOutcome.fatalAbort := by
  exact ⟨rfl, rfl⟩

/-- C4 (amended): whenever the UTF-16LE encoding of the variable name does
not occupy exactly twice the declared name length in bytes, re-marshaling
fails; during a rehash that needs the re-marshaled event (whole-event
strategy, content available) this failure is escalated by `fatal()`, which
aborts the entire run — not just the processing of that single event. -/
theorem C4_remarshal_mismatch_fatal :
    (∀ (parsed : EfiVariableEvent) (raw_data : List Nat),
      U32 (buffer_put_utf16le parsed.variable_name).length
        ≠ U32 (2 * U32 (strlen parsed.variable_name)) →
      tpm_event_marshal_efi_variable parsed raw_data = none
      ∧ tpm_event_efi_variable_build_event parsed raw_data = none)
    ∧ (∀ (ops : ExternalOps) (ctx : RehashContext) (ev : TpmEvent)
      (parsed : EfiVariableEvent) (d fd : List Nat),
      U32 (buffer_put_utf16le parsed.variable_name).length
        ≠ U32 (2 * U32 (strlen parsed.variable_name)) →
      tpm_event_get_digest ev ctx.algo = some d →
      ops.digest_compute ctx.algo ev.event_data = d →
      ev.event_type ≠ TPM2_EFI_VARIABLE_AUTHORITY →
      (∀ vn, ops.runtime_read_efi_variable vn = some fd) →
      tpm_event_efi_variable_rehash ops ctx ev parsed = RehashOutcome.fatalAbort) := by
  have hmar : ∀ (parsed : EfiVariableEvent) (raw_data : List Nat),
      U32 (buffer_put_utf16le parsed.variable_name).length
        ≠ U32 (2 * U32 (strlen parsed.variable_name)) →
      tpm_event_marshal_efi_variable parsed raw_data = none := by
    intro parsed raw_data h
    simp [tpm_event_marshal_efi_variable, h]
  refine ⟨fun parsed raw_data h => ⟨hmar parsed raw_data h, hmar parsed raw_data h⟩,
    ?_⟩
  intro ops ctx ev parsed d fd hmm hd hraw htype hread
  have hdet : tpm_event_efi_variable_detect_hash_strategy ops ctx.algo ev parsed
      = some (HashStrategy.event, false) := by
    simp [tpm_event_efi_variable_detect_hash_strategy, hd, hraw]
  have hbuild := hmar parsed fd hmm
  simp [tpm_event_efi_variable_rehash, hdet, htype, hread,
    tpm_event_efi_variable_build_event, hbuild, bufferOfOption]

/-- C4 witness: the accented variable name at concrete inputs — marshaling
fails and the rehash outcome is the whole-process abort. -/
theorem C4_witness :
    tpm_event_efi_variable_rehash opsReadEmpty ctxNoImg evDigest0 parsedAccent
      = RehashOutcome.fatalAbort :=
  C4_remarshal_mismatch_fatal.2 opsReadEmpty ctxNoImg evDigest0 parsedAccent [0] []
    (by decide) rfl rfl (by decide) (fun _ => rfl)

set_option maxRecDepth 40000 in
/-- C8 counterexample: for a 300-character variable name without a shim
alias, the resolved full name is not the full string name-dash-guid — the
source writes it through snprintf into a 256-byte static buffer, so the
result is truncated to 255 bytes. -/
theorem C8_counterexample :
    tpm_efi_variable_event_extract_full_varname opsConst parsedLong
      ≠ utf8Bytes (parsedLong.variable_name ++ "-"
          ++ tpm_event_decode_uuid parsedLong.variable_guid) := by
  decide

/-- C8 (amended): full-name resolution returns a shim alias verbatim when
one exists; otherwise it returns the bytes of name-dash-guid (GUID in
canonical dashed hexadecimal) truncated to at most 255 bytes, and returns
them exactly whenever that string fits the source's 256-byte buffer.  In
this embedding the resolution is a total function of its inputs with no
failure path. -/
theorem C8_full_varname :
    (∀ (ops : ExternalOps) (parsed : EfiVariableEvent) (a : String),
      ops.shim_variable_get_full_rtname parsed.variable_name = some a →
      tpm_efi_variable_event_extract_full_varname ops parsed = utf8Bytes a)
    ∧ (∀ (ops : ExternalOps) (parsed : EfiVariableEvent),
      ops.shim_variable_get_full_rtname parsed.variable_name = none →
      tpm_efi_variable_event_extract_full_varname ops parsed
        = (utf8Bytes (parsed.variable_name ++ "-"
            ++ tpm_event_decode_uuid parsed.variable_guid)).take 255)
    ∧ (∀ (ops : ExternalOps) (parsed : EfiVariableEvent),
      ops.shim_variable_get_full_rtname parsed.variable_name = none →
      (utf8Bytes (parsed.variable_name ++ "-"
        ++ tpm_event_decode_uuid parsed.variable_guid)).length ≤ 255 →
      tpm_efi_variable_event_extract_full_varname ops parsed
        = utf8Bytes (parsed.variable_name ++ "-"
            ++ tpm_event_decode_uuid parsed.variable_guid)) := by
  refine ⟨?_, ?_, ?_⟩
  · intro ops parsed a h
    simp [tpm_efi_variable_event_extract_full_varname, h]
  · intro ops parsed h
    simp [tpm_efi_variable_event_extract_full_varname, h]
  · intro ops parsed h hlen
    simp [tpm_efi_variable_event_extract_full_varname, h, List.take_of_length_le hlen]

/-- C8 witness: the db variable with the zero GUID has no alias and its
39-byte full name fits the buffer, so resolution returns it exactly. -/
theorem C8_witness :
    tpm_efi_variable_event_extract_full_varname opsConst parsedDb
      = utf8Bytes (parsedDb.variable_name ++ "-"
          ++ tpm_event_decode_uuid parsedDb.variable_guid) :=
  C8_full_varname.2.2 opsConst parsedDb rfl (by decide)

/-- C5 (amended): decoding a valid wire-encoded EFI_VARIABLE event body that
is fully consumed, whose bytes are genuine (below 256), whose total length
fits the 32-bit lengths of the re-marshaling interface, and whose decoded
name consists of non-NUL ASCII characters, and then re-marshaling the
decoded event with its own payload, reproduces the original wire bytes
byte-for-byte.  The ASCII restriction is forced: the re-marshaler declares
the name length as C strlen (UTF-8 bytes) where the wire declares UTF-16
code units, so any non-ASCII name fails the re-marshaler's consistency
check (see the counterexample); the non-NUL restriction reflects the
C-string representation of the decoded name. -/
theorem C5_roundtrip (wire : List Nat) (ev : EfiVariableEvent)
    (hparse : tpm_event_parse_efi_variable wire = some (ev, []))
    (hbytes : ∀ b ∈ wire, b < 256)
    (hwlen : wire.length < 4294967296)
    (hascii : ∀ c ∈ ev.variable_name.data, c.toNat ≠ 0 ∧ c.toNat < 128) :
    tpm_event_efi_variable_build_event ev ev.data = some wire := by
  unfold tpm_event_parse_efi_variable at hparse
  cases h16 : takeBytes 16 wire with
  | none => rw [h16] at hparse; exact Option.noConfusion hparse
  | some p16 =>
  obtain ⟨guid, bp1⟩ := p16
  rw [h16] at hparse
  simp only [] at hparse
  cases h8a : takeBytes 8 bp1 with
  | none => rw [h8a] at hparse; exact Option.noConfusion hparse
  | some p8a =>
  obtain ⟨nlb, bp2⟩ := p8a
  rw [h8a] at hparse
  simp only [] at hparse
  cases h8b : takeBytes 8 bp2 with
  | none => rw [h8b] at hparse; exact Option.noConfusion hparse
  | some p8b =>
  obtain ⟨dlb, bp3⟩ := p8b
  rw [h8b] at hparse
  simp only [] at hparse
  cases hnb : takeBytes (2 * u64leDecode nlb) bp3 with
  | none => rw [hnb] at hparse; exact Option.noConfusion hparse
  | some pnb =>
  obtain ⟨nameBytes, bp4⟩ := pnb
  rw [hnb] at hparse
  simp only [] at hparse
  cases hname : buffer_get_utf16le nameBytes with
  | none => rw [hname] at hparse; exact Option.noConfusion hparse
  | some vname =>
  rw [hname] at hparse
  simp only [] at hparse
  cases hdb : takeBytes (u64leDecode dlb) bp4 with
  | none => rw [hdb] at hparse; exact Option.noConfusion hparse
  | some pdb =>
  obtain ⟨vdata, bp5⟩ := pdb
  rw [hdb] at hparse
  simp only [Option.some.injEq, Prod.mk.injEq] at hparse
  obtain ⟨hev, hbp5⟩ := hparse
  subst hbp5
  subst hev
  simp only [] at hascii
  obtain ⟨hw1, hg16⟩ := takeBytes_spec h16
  obtain ⟨hw2, hn8⟩ := takeBytes_spec h8a
  obtain ⟨hw3, hd8⟩ := takeBytes_spec h8b
  obtain ⟨hw4, hnbl⟩ := takeBytes_spec hnb
  obtain ⟨hw5, hdl⟩ := takeBytes_spec hdb
  rw [List.append_nil] at hw5
  have hwire : wire = guid ++ (nlb ++ (dlb ++ (nameBytes ++ vdata))) := by
    rw [hw1, hw2, hw3, hw4, hw5]
  have hnlbB : ∀ b ∈ nlb, b < 256 := by
    intro b hb
    exact hbytes b (by rw [hwire]; simp [hb])
  have hdlbB : ∀ b ∈ dlb, b < 256 := by
    intro b hb
    exact hbytes b (by rw [hwire]; simp [hb])
  have hnameB : ∀ b ∈ nameBytes, b < 256 := by
    intro b hb
    exact hbytes b (by rw [hwire]; simp [hb])
  unfold buffer_get_utf16le at hname
  rw [Option.map_eq_some'] at hname
  obtain ⟨cs, hbind, hmk⟩ := hname
  rw [Option.bind_eq_some] at hbind
  obtain ⟨us, hun, hdec⟩ := hbind
  subst hmk
  have hascii' : ∀ c ∈ cs, c.toNat < 128 := fun c hc => (hascii c hc).2
  obtain ⟨hencB, huu, hlen2⟩ := utf16Units_inv hun hnameB
  have hus : us = cs.map Char.toNat := unitsDecode_ascii hdec huu hascii'
  have husl : us.length = u64leDecode nlb := by omega
  have hcsl : cs.length = us.length := by rw [hus]; simp
  have hwl : wire.length = 16 + (8 + (8 + (nameBytes.length + vdata.length))) := by
    rw [hwire]
    simp [hg16, hn8, hd8]
  have hput : buffer_put_utf16le (String.mk cs) = nameBytes := by
    rw [put_utf16le_ascii hascii', ← hus, hencB]
  have hstr : strlen (String.mk cs) = cs.length := strlen_ascii hascii'
  have hvar : U32 (strlen (String.mk cs)) = u64leDecode nlb := by
    rw [hstr, hcsl, husl]
    exact Nat.mod_eq_of_lt (by omega)
  have hnlbEnc : u64le (u64leDecode nlb) = nlb := u64le_u64leDecode hn8 hnlbB
  have hdlbEnc : u64le (u64leDecode dlb) = dlb := u64le_u64leDecode hd8 hdlbB
  have hdata : U32 vdata.length = u64leDecode dlb := by
    rw [hdl]
    exact Nat.mod_eq_of_lt (by omega)
  have hcond : U32 (buffer_put_utf16le (String.mk cs)).length
      = U32 (2 * U32 (strlen (String.mk cs))) := by
    rw [hput, hvar, hnbl]
  unfold tpm_event_efi_variable_build_event tpm_event_marshal_efi_variable
  simp only []
  rw [if_pos hcond]
  rw [hput, hvar, hnlbEnc, hdata, hdlbEnc, hwire]
  simp only [List.append_assoc]

/-- C5 counterexample: a valid wire event whose one-unit name is U+00E9
decodes successfully, but re-marshaling the decoded event with its own
payload fails (returns no buffer at all, rather than the original bytes):
strlen of the UTF-8 name is 2 while the name occupies 1 UTF-16 unit. -/
theorem C5_counterexample :
    tpm_event_parse_efi_variable wireAccent = some (parsedAccent, [])
    ∧ tpm_event_efi_variable_build_event parsedAccent parsedAccent.data = none := by
  exact ⟨rfl, rfl⟩

/-- C5 witness: the round trip at a concrete 43-byte wire event for db. -/
theorem C5_witness :
    tpm_event_efi_variable_build_event wireDbParsed wireDbParsed.data = some wireDb :=
  C5_roundtrip wireDb wireDbParsed (by decide) (by decide) (by decide) (by decide)

end EfiVar
